import Mathlib

set_option maxHeartbeats 1000000

/- Verification of the Diamondback snake-language compiler
   (src/src/compile.rs, src/src/lambda_lift.rs, src/src/syntax.rs).

   Embedding conventions:
   - The Rust AST types are polymorphic in a Span annotation that the code
     only clones into error values; here Span is instantiated to Unit and
     elided, and error values carry their data fields without the location.
   - Rust i64 and u64 values are embedded as Int and Nat; wrap-around is
     applied explicitly (mod 2 to the 64) in the machine model where it
     matters.
   - HashMap is embedded as an association list with insert-at-front and
     first-match lookup, which coincides with HashMap lookup, insert and
     contains_key. HashSet is embedded as a duplicate-free list preserving
     insertion order; the code only iterates a set whose order matters when
     the set is a singleton, so the choice of order is immaterial here.
   - Functions that can hit a Rust panic (a todo macro, unwrap on None, map
     indexing on a missing key, vector indexing out of bounds) return Option
     (none = panic) or the panicked outcome of Res. -/

inductive Prim where
  | Add1
  | Sub1
  | Not
  | Print
  | IsBool
  | IsNum
  | Add
  | Sub
  | Mul
  | And
  | Or
  | Lt
  | Gt
  | Le
  | Ge
  | Eq
  | Neq
deriving DecidableEq

/- Exp from syntax.rs; FunDecl { name, parameters, body } is inlined as a
   triple (name, parameters, body). -/
inductive Exp where
  | Num (i : Int)
  | Bool (b : Bool)
  | Var (s : String)
  | Prim (p : Prim) (exps : List Exp)
  | Let (bindings : List (String × Exp)) (body : Exp)
  | If (cond : Exp) (thn : Exp) (els : Exp)
  | FunDefs (decls : List (String × List String × Exp)) (body : Exp)
  | Call (fn : String) (args : List Exp)
  | InternalTailCall (fn : String) (args : List Exp)
  | ExternalCall (fn : String) (args : List Exp) (is_tail : Bool)

inductive ImmExp where
  | Num (i : Int)
  | Bool (b : Bool)
  | Var (s : String)
deriving DecidableEq

inductive SeqExp where
  | Imm (i : ImmExp)
  | Prim (p : Prim) (exps : List ImmExp)
  | Let (var : String) (bound_exp : SeqExp) (body : SeqExp)
  | If (cond : ImmExp) (thn : SeqExp) (els : SeqExp)
  | FunDefs (decls : List (String × List String × SeqExp)) (body : SeqExp)
  | InternalTailCall (fn : String) (args : List ImmExp)
  | ExternalCall (fn : String) (args : List ImmExp) (is_tail : Bool)

inductive CompileErr where
  | UnboundVariable (unbound : String)
  | UndefinedFunction (undefined : String)
  | DuplicateBinding (duplicated_name : String)
  | Overflow (num : Int)
  | DuplicateFunName (duplicated_name : String)
  | DuplicateArgName (duplicated_name : String)
  | FunctionUsedAsValue (function_name : String)
  | ValueUsedAsFunction (variable_name : String)
  | FunctionCalledWrongArity (function_name : String) (correct_arity : Nat)
      (arity_used : Nat)
deriving DecidableEq

/- Outcome of a fallible compiler stage: ok, a checker error, or a Rust
   panic (todo macro, unwrap, index on a missing key). -/
inductive Res (α : Type) where
  | ok (a : α)
  | err (e : CompileErr)
  | panicked
deriving DecidableEq

inductive SymKind where
  | Func (params : List String)
  | Var
deriving DecidableEq

/- Association-list embedding of HashMap. -/
def lookupSym {α : Type} (m : List (String × α)) (k : String) : Option α :=
  match m with
  | [] => none
  | (k2, v) :: rest => if k2 = k then some v else lookupSym rest k

def insertSym {α : Type} (m : List (String × α)) (k : String) (v : α) :
    List (String × α) :=
  (k, v) :: m

def I63_MAX : Int := 0x3FFFFFFFFFFFFFFF

def I63_MIN : Int := -0x4000000000000000

mutual

/- check_prog_inner from compile.rs lines 76-200.  The loops over Let
   bindings, FunDefs declarations and primitive/call argument lists are
   split off as check_let_bindings, check_fun_decls and check_each. -/
def check_prog_inner (e : Exp) (symbols : List (String × SymKind)) : Res Unit :=
  match e with
  | .Num i =>
      if i > I63_MAX ∨ i < I63_MIN then .err (.Overflow i) else .ok ()
  | .Var name =>
      match lookupSym symbols name with
      | none => .err (.UnboundVariable name)
      | some (.Func _) => .err (.FunctionUsedAsValue name)
      | some .Var => .ok ()
  | .Prim _ exps => check_each exps symbols
  | .Let bindings body =>
      match check_let_bindings bindings symbols [] with
      | .ok scopedSyms => check_prog_inner body scopedSyms
      | .err e2 => .err e2
      | .panicked => .panicked
  | .Bool _ => .ok ()
  | .If cond thn els =>
      match check_prog_inner cond symbols with
      | .ok _ =>
        match check_prog_inner thn symbols with
        | .ok _ => check_prog_inner els symbols
        | .err e2 => .err e2
        | .panicked => .panicked
      | .err e2 => .err e2
      | .panicked => .panicked
  | .FunDefs decls body =>
      match check_fun_decls decls symbols [] with
      | .ok scopedSyms => check_prog_inner body scopedSyms
      | .err e2 => .err e2
      | .panicked => .panicked
  | .Call func params =>
      match lookupSym symbols func with
      | none => .err (.UndefinedFunction func)
      | some (.Func decl_params) =>
          if params.length ≠ decl_params.length then
            .err (.FunctionCalledWrongArity func decl_params.length
              params.length)
          else check_each params symbols
      | some .Var => .err (.ValueUsedAsFunction func)
  | .InternalTailCall _ _ => .panicked
  | .ExternalCall _ _ _ => .panicked

/- Loop body of the Exp::Let case: the duplicate check against appeared,
   then the insertion of the name as a Var symbol, then the check of the
   bound value under the extended scope. Returns the final scope table. -/
def check_let_bindings (bindings : List (String × Exp))
    (scopedSyms : List (String × SymKind)) (appeared : List String) :
    Res (List (String × SymKind)) :=
  match bindings with
  | [] => .ok scopedSyms
  | (name, value) :: rest =>
      if appeared.contains name then .err (.DuplicateBinding name)
      else
        let scopedSyms2 := insertSym scopedSyms name .Var
        match check_prog_inner value scopedSyms2 with
        | .ok _ => check_let_bindings rest scopedSyms2 (name :: appeared)
        | .err e2 => .err e2
        | .panicked => .panicked

/- Loop body of the Exp::FunDefs case: duplicate-name check against
   mutual_funcs, then the insertion of the name as a Func symbol, then
   the check of the declaration body under the extended scope.  Note that
   the loop checks each body before later declarations are inserted, and
   that the parameters are never added to the scope. -/
def check_fun_decls (decls : List (String × List String × Exp))
    (scopedSyms : List (String × SymKind)) (mutual_funcs : List String) :
    Res (List (String × SymKind)) :=
  match decls with
  | [] => .ok scopedSyms
  | (name, params, body) :: rest =>
      if mutual_funcs.contains name then .err (.DuplicateFunName name)
      else
        let scopedSyms2 := insertSym scopedSyms name (.Func params)
        match check_prog_inner body scopedSyms2 with
        | .ok _ => check_fun_decls rest scopedSyms2 (name :: mutual_funcs)
        | .err e2 => .err e2
        | .panicked => .panicked

/- The argument loops of the Exp::Prim and Exp::Call cases. -/
def check_each (exps : List Exp) (symbols : List (String × SymKind)) :
    Res Unit :=
  match exps with
  | [] => .ok ()
  | e :: rest =>
      match check_prog_inner e symbols with
      | .ok _ => check_each rest symbols
      | .err e2 => .err e2
      | .panicked => .panicked

end

def check_prog (p : Exp) : Res Unit := check_prog_inner p []

/- mapLookupAll models parameters.iter().map(|p| map[p]) where indexing a
   missing key panics. -/
def mapLookupAll (m : List (String × String)) (ks : List String) :
    Option (List String) :=
  match ks with
  | [] => some []
  | k :: rest =>
      match lookupSym m k with
      | none => none
      | some v =>
          match mapLookupAll m rest with
          | none => none
          | some l => some (v :: l)

/- The first loop of the Exp::FunDefs case of uniquify in compile.rs
   (lines 843-847): allocate a fresh numeral name for every declared
   function. -/
def fresh_fun_names (decls : List (String × List String × Exp))
    (mapping : List (String × String)) (counter : Nat) :
    List (String × String) × Nat :=
  match decls with
  | [] => (mapping, counter)
  | (name, _, _) :: rest =>
      fresh_fun_names rest (insertSym mapping name (toString (counter + 1)))
        (counter + 1)

mutual

/- uniquify from compile.rs lines 817-908.  The fresh-name counter is
   threaded explicitly; a map index on a missing key is a Rust panic,
   embedded as none.  Two quirks of the source are preserved: the body
   stored for every declaration in a FunDefs group is the uniquified
   TRAILING body of the group (line 857 uses body, not decl.body), and the
   trailing body itself is uniquified under the OUTER mapping (line 863). -/
def uniquify (e : Exp) (mapping : List (String × String)) (counter : Nat) :
    Option (Exp × Nat) :=
  match e with
  | .Let bindings body =>
      match uniquify_bindings bindings mapping counter with
      | none => none
      | some (mut_bind, scopedMap, c1) =>
          match uniquify body scopedMap c1 with
          | none => none
          | some (b2, c2) => some (.Let mut_bind b2, c2)
  | .FunDefs decls body =>
      match fresh_fun_names decls mapping counter with
      | (scopedMap, c1) =>
          match uniquify_decls decls body scopedMap c1 with
          | none => none
          | some (uniq_decls, c2) =>
              match uniquify body mapping c2 with
              | none => none
              | some (b2, c3) => some (.FunDefs uniq_decls b2, c3)
  | .Var v =>
      match lookupSym mapping v with
      | none => none
      | some v2 => some (.Var v2, counter)
  | .Num i => some (.Num i, counter)
  | .Bool b => some (.Bool b, counter)
  | .Prim op subjects =>
      match uniquify_each subjects mapping counter with
      | none => none
      | some (l, c1) => some (.Prim op l, c1)
  | .If cond thn els =>
      match uniquify cond mapping counter with
      | none => none
      | some (c2, n1) =>
          match uniquify thn mapping n1 with
          | none => none
          | some (t2, n2) =>
              match uniquify els mapping n2 with
              | none => none
              | some (e2, n3) => some (.If c2 t2 e2, n3)
  | .Call func params =>
      match uniquify_each params mapping counter with
      | none => none
      | some (uniq_params, c1) =>
          match lookupSym mapping func with
          | none => none
          | some f2 => some (.Call f2 uniq_params, c1)
  | .InternalTailCall _ _ => some (.InternalTailCall "" [], counter)
  | .ExternalCall _ _ is_tail => some (.ExternalCall "" [] is_tail, counter)

/- The bindings loop of the Exp::Let case of uniquify: freshen the bound
   name, uniquify the bound value under the mapping WITHOUT the new name,
   then extend the mapping for the subsequent bindings and the body. -/
def uniquify_bindings (bindings : List (String × Exp))
    (scopedMap : List (String × String)) (counter : Nat) :
    Option (List (String × Exp) × List (String × String) × Nat) :=
  match bindings with
  | [] => some ([], scopedMap, counter)
  | (var, value) :: rest =>
      let c1 := counter + 1
      let new_var := toString c1
      match uniquify value scopedMap c1 with
      | none => none
      | some (mut_exp, c2) =>
          let scopedMap2 := insertSym scopedMap var new_var
          match uniquify_bindings rest scopedMap2 c2 with
          | none => none
          | some (l, scopedMap3, c3) =>
              some ((new_var, mut_exp) :: l, scopedMap3, c3)

/- The uniq_decls map of the Exp::FunDefs case of uniquify: for each
   declaration, the group-scoped name, the parameters looked up in the
   group map (a missing parameter is a panic), and as body the uniquified
   trailing body of the group, exactly as the source does. -/
def uniquify_decls (decls : List (String × List String × Exp)) (body : Exp)
    (scopedMap : List (String × String)) (counter : Nat) :
    Option (List (String × List String × Exp) × Nat) :=
  match decls with
  | [] => some ([], counter)
  | (name, params, _) :: rest =>
      match lookupSym scopedMap name with
      | none => none
      | some new_name =>
          match mapLookupAll scopedMap params with
          | none => none
          | some new_params =>
              match uniquify body scopedMap counter with
              | none => none
              | some (new_body, c2) =>
                  match uniquify_decls rest body scopedMap c2 with
                  | none => none
                  | some (l, c3) =>
                      some ((new_name, new_params, new_body) :: l, c3)

/- The argument maps of the Exp::Prim and Exp::Call cases of uniquify. -/
def uniquify_each (es : List Exp) (mapping : List (String × String))
    (counter : Nat) : Option (List Exp × Nat) :=
  match es with
  | [] => some ([], counter)
  | e :: rest =>
      match uniquify e mapping counter with
      | none => none
      | some (e2, c1) =>
          match uniquify_each rest mapping c1 with
          | none => none
          | some (l, c2) => some (e2 :: l, c2)

end

def try_flatten_prim1 (p : Prim) (exp : SeqExp) : Option SeqExp :=
  match exp with
  | .Imm i => some (.Prim p [i])
  | _ => none

/- try_flatten_prim2 from compile.rs lines 209-240; the counter is
   incremented exactly on the branches where the source increments it, and
   the outer none is the no-flattening answer (not a panic). -/
def try_flatten_prim2 (p : Prim) (exp1 exp2 : SeqExp) (counter : Nat) :
    Option (SeqExp × Nat) :=
  match exp1 with
  | .Imm i1 =>
      match exp2 with
      | .Imm i2 => some (.Prim p [i1, i2], counter)
      | _ =>
          let c1 := counter + 1
          let name2 := "#prim2_2_" ++ toString c1
          some (.Let name2 exp2 (.Prim p [i1, .Var name2]), c1)
  | _ =>
      match exp2 with
      | .Imm i2 =>
          let c1 := counter + 1
          let name1 := "#prim2_1_" ++ toString c1
          some (.Let name1 exp1 (.Prim p [.Var name1, i2]), c1)
      | _ => none

mutual

/- sequentialize from compile.rs lines 242-339.  A todo branch (FunDefs,
   Call, InternalTailCall, ExternalCall), an empty Prim argument vector
   (exps[0] out of bounds) and an empty Let binding vector (unwrap on None)
   are Rust panics, embedded as none.  A Prim node with more than two
   arguments uses exps[0] and exps[1] and ignores the rest, as the source
   does. -/
def sequentialize (e : Exp) (counter : Nat) : Option (SeqExp × Nat) :=
  match e with
  | .Bool b => some (.Imm (.Bool b), counter)
  | .Num i => some (.Imm (.Num i), counter)
  | .Var s => some (.Imm (.Var s), counter)
  | .Prim p exps =>
      match exps with
      | [] => none
      | [e1] =>
          match sequentialize e1 counter with
          | none => none
          | some (a, c1) =>
              match try_flatten_prim1 p a with
              | some flattened => some (flattened, c1)
              | none =>
                  let c2 := c1 + 1
                  let name1 := "#prim1_" ++ toString c2
                  some (.Let name1 a (.Prim p [.Var name1]), c2)
      | e1 :: e2 :: _ =>
          match sequentialize e1 counter with
          | none => none
          | some (a, c1) =>
              match sequentialize e2 c1 with
              | none => none
              | some (b, c2) =>
                  match try_flatten_prim2 p a b c2 with
                  | some (flattened, c3) => some (flattened, c3)
                  | none =>
                      let c3 := c2 + 1
                      let name1 := "#prim2_1_" ++ toString c3
                      let name2 := "#prim2_2_" ++ toString c3
                      some (.Let name1 a
                        (.Let name2 b (.Prim p [.Var name1, .Var name2])), c3)
  | .Let bindings body => seq_let bindings body counter
  | .If cond thn els =>
      let c1 := counter + 1
      let var_name := "#if_" ++ toString c1
      match sequentialize cond c1 with
      | none => none
      | some (sc, c2) =>
          match sequentialize thn c2 with
          | none => none
          | some (st, c3) =>
              match sequentialize els c3 with
              | none => none
              | some (se2, c4) =>
                  some (.Let var_name sc (.If (.Var var_name) st se2), c4)
  | .FunDefs _ _ => none
  | .Call _ _ => none
  | .InternalTailCall _ _ => none
  | .ExternalCall _ _ _ => none
termination_by sizeOf e

/- The reverse-order bindings loop of the Exp::Let case of sequentialize:
   the source iterates bindings in reverse, so the LAST binding and then
   the body consume the counter first, then earlier bindings in reverse
   order; an empty bindings vector is an unwrap panic. -/
def seq_let (bindings : List (String × Exp)) (body : Exp) (counter : Nat) :
    Option (SeqExp × Nat) :=
  match bindings with
  | [] => none
  | [(var, exp)] =>
      match sequentialize exp counter with
      | none => none
      | some (se, c1) =>
          match sequentialize body c1 with
          | none => none
          | some (sb, c2) => some (.Let var se sb, c2)
  | (var, exp) :: rest =>
      match seq_let rest body counter with
      | none => none
      | some (inner, c1) =>
          match sequentialize exp c1 with
          | none => none
          | some (se, c2) => some (.Let var se inner, c2)
termination_by sizeOf bindings + sizeOf body

end

/- Modelled from the spec: the instruction ADT of section 3 and the
   registers and operand forms the code generator uses.  asm.rs, which
   declares these types in the repository, is not under src/; the variants
   below are exactly the ones compile.rs constructs. -/
inductive Reg where
  | Rax
  | Rdx
  | Rcx
  | Rdi
  | Rsi
  | Rsp
deriving DecidableEq

structure MemRef where
  reg : Reg
  offset : Int
deriving DecidableEq

inductive Arg64 where
  | Signed (i : Int)
  | Unsigned (n : Nat)
  | Reg (r : Reg)
  | Mem (m : MemRef)
deriving DecidableEq

inductive Arg32 where
  | Signed (i : Int)
  | Unsigned (n : Nat)
  | Reg (r : Reg)
  | Mem (m : MemRef)
deriving DecidableEq

inductive Reg32 where
  | Reg (r : Reg)
deriving DecidableEq

inductive MovArgs where
  | ToReg (r : Reg) (a : Arg64)
  | ToMem (m : MemRef) (r : Reg32)
deriving DecidableEq

inductive BinArgs where
  | ToReg (r : Reg) (a : Arg32)
deriving DecidableEq

inductive Instr where
  | Mov (args : MovArgs)
  | Add (args : BinArgs)
  | Sub (args : BinArgs)
  | IMul (args : BinArgs)
  | And (args : BinArgs)
  | Or (args : BinArgs)
  | Xor (args : BinArgs)
  | Shl (args : BinArgs)
  | Sar (args : BinArgs)
  | Cmp (args : BinArgs)
  | Je (label : String)
  | Jne (label : String)
  | Jo (label : String)
  | Jmp (label : String)
  | Call (label : String)
  | Ret
  | Label (label : String)
deriving DecidableEq

def SNAKE_TRU : Nat := 0xFFFFFFFFFFFFFFFF

def SNAKE_FLS : Nat := 0x7FFFFFFFFFFFFFFF

def OVERFLOW : String := "overflow_error"

def ARITH_ERROR : String := "arith_error"

def CMP_ERROR : String := "cmp_error"

def IF_ERROR : String := "if_error"

def LOGIC_ERROR : String := "logic_error"

def SNAKE_ERROR : String := "snake_error"

/- get from compile.rs lines 367-377: the stack environment is scanned most
   recent binding first.  The Rust Vec is pushed at the back and scanned in
   reverse; here the list is kept most-recent-first with push = cons, which
   is the same search order, and its length is the same. -/
def get (env : List (String × Int)) (x : String) : Option Int :=
  match env with
  | [] => none
  | (y, n) :: rest => if x = y then some n else get rest x

/- imm_to_arg64 from compile.rs lines 389-407.  The i64 shift i << 1 is
   embedded as i * 2: the checker has already bounded source literals so
   the shift cannot drop bits, and the machine model below reduces every
   operand mod 2 to the 64 anyway.  A missing stack slot is an unwrap
   panic, embedded as none. -/
def imm_to_arg64 (imm : ImmExp) (stack : List (String × Int)) :
    Option Arg64 :=
  match imm with
  | .Num i => some (.Signed (i * 2))
  | .Var s =>
      match get stack s with
      | none => none
      | some offset => some (.Mem ⟨Reg.Rsp, offset⟩)
  | .Bool b => some (if b then .Unsigned SNAKE_TRU else .Unsigned SNAKE_FLS)

def imm_to_rax (imm : ImmExp) (stack : List (String × Int)) :
    Option (List Instr) :=
  match imm_to_arg64 imm stack with
  | none => none
  | some a => some [Instr.Mov (.ToReg .Rax a)]

def arith_check (reg : Reg) : List Instr :=
  [ .Mov (.ToReg .Rcx (.Reg reg)),
    .And (.ToReg .Rcx (.Signed 1)),
    .Cmp (.ToReg .Rcx (.Signed 1)),
    .Je ARITH_ERROR ]

def cmp_check (reg : Reg) : List Instr :=
  [ .Mov (.ToReg .Rcx (.Reg reg)),
    .And (.ToReg .Rcx (.Signed 1)),
    .Cmp (.ToReg .Rcx (.Signed 1)),
    .Je CMP_ERROR ]

def logic_check (reg : Reg) : List Instr :=
  [ .Mov (.ToReg .Rcx (.Reg reg)),
    .And (.ToReg .Rcx (.Signed 1)),
    .Cmp (.ToReg .Rcx (.Signed 0)),
    .Je LOGIC_ERROR ]

def if_check (reg : Reg) : List Instr :=
  [ .Mov (.ToReg .Rcx (.Reg reg)),
    .And (.ToReg .Rcx (.Signed 1)),
    .Cmp (.ToReg .Rcx (.Signed 0)),
    .Je IF_ERROR ]

/- sub_for_cmp from compile.rs lines 409-433; exps[0] and exps[1] out of
   bounds, or a missing stack slot, are panics (none). -/
def sub_for_cmp (exps : List ImmExp) (stack : List (String × Int))
    (reverse : Bool) : Option (List Instr) :=
  match exps with
  | e0 :: e1 :: _ =>
      match imm_to_arg64 e0 stack, imm_to_arg64 e1 stack with
      | some a0, some a1 =>
          let movs :=
            if reverse then
              [Instr.Mov (.ToReg .Rdx a0), Instr.Mov (.ToReg .Rax a1)]
            else
              [Instr.Mov (.ToReg .Rax a0), Instr.Mov (.ToReg .Rdx a1)]
          some (movs ++ cmp_check .Rax ++ cmp_check .Rdx ++
            [ .Sar (.ToReg .Rax (.Signed 1)),
              .Sar (.ToReg .Rdx (.Signed 1)),
              .Sub (.ToReg .Rax (.Reg .Rdx)) ])
      | _, _ => none
  | _ => none

def NEG_MASK : Nat := 0x7FFFFFFFFFFFFFFF

def is_neg : List Instr :=
  [ .Mov (.ToReg .Rdx (.Unsigned NEG_MASK)),
    .Or (.ToReg .Rax (.Reg .Rdx)) ]

def NON_NEG_MASK : Nat := 0x8000000000000000

def is_non_neg : List Instr :=
  [ .Mov (.ToReg .Rdx (.Unsigned NON_NEG_MASK)),
    .Xor (.ToReg .Rax (.Reg .Rdx)),
    .Mov (.ToReg .Rdx (.Unsigned SNAKE_FLS)),
    .Or (.ToReg .Rax (.Reg .Rdx)) ]

def BOOL_MASK : Nat := 0x8000000000000000

/- compile_to_instrs_inner from compile.rs lines 490-713.  The mutable
   stack vector and label counter are threaded explicitly: a Let pushes its
   slot and the push persists after its body; an If compiles the then
   branch on a clone of the stack (its pushes are discarded) and the else
   branch on the real stack (its pushes persist), as the source does.
   Panics (todo branches, missing slots, empty argument vectors) are
   none. -/
def compile_to_instrs_inner (e : SeqExp) (counter : Nat) (max_stack : Nat)
    (stack : List (String × Int)) :
    Option (List Instr × Nat × List (String × Int)) :=
  match e with
  | .Imm exp =>
      match imm_to_rax exp stack with
      | none => none
      | some is => some (is, counter, stack)
  | .Prim p exps =>
      match exps with
      | [] => none
      | e0 :: restArgs =>
        match imm_to_rax e0 stack with
        | none => none
        | some res0 =>
          match p with
          | .Add =>
              match restArgs with
              | [] => none
              | e1 :: _ =>
                match imm_to_arg64 e1 stack with
                | none => none
                | some a1 =>
                    some (res0 ++ arith_check .Rax ++
                      [Instr.Mov (.ToReg .Rdx a1)] ++ arith_check .Rdx ++
                      [ .Add (.ToReg .Rax (.Reg .Rdx)), .Jo OVERFLOW ],
                      counter, stack)
          | .Sub =>
              match restArgs with
              | [] => none
              | e1 :: _ =>
                match imm_to_arg64 e1 stack with
                | none => none
                | some a1 =>
                    some (res0 ++ arith_check .Rax ++
                      [Instr.Mov (.ToReg .Rdx a1)] ++ arith_check .Rdx ++
                      [ .Sub (.ToReg .Rax (.Reg .Rdx)), .Jo OVERFLOW ],
                      counter, stack)
          | .Mul =>
              match restArgs with
              | [] => none
              | e1 :: _ =>
                match imm_to_arg64 e1 stack with
                | none => none
                | some a1 =>
                    some (res0 ++ arith_check .Rax ++
                      [Instr.Mov (.ToReg .Rdx a1)] ++ arith_check .Rdx ++
                      [ .Sar (.ToReg .Rdx (.Signed 1)),
                        .IMul (.ToReg .Rax (.Reg .Rdx)), .Jo OVERFLOW ],
                      counter, stack)
          | .Add1 =>
              some (res0 ++ arith_check .Rax ++
                [ .Add (.ToReg .Rax (.Unsigned 0x2)), .Jo OVERFLOW ],
                counter, stack)
          | .Sub1 =>
              some (res0 ++ arith_check .Rax ++
                [ .Sub (.ToReg .Rax (.Unsigned 0x2)), .Jo OVERFLOW ],
                counter, stack)
          | .Not =>
              some (res0 ++ logic_check .Rax ++
                [ .Mov (.ToReg .Rdx (.Unsigned BOOL_MASK)),
                  .Xor (.ToReg .Rax (.Reg .Rdx)) ],
                counter, stack)
          | .Print =>
              match imm_to_arg64 e0 stack with
              | none => none
              | some a0 =>
                  some ([ Instr.Mov (.ToReg .Rdi a0),
                    .Sub (.ToReg .Rsp (.Unsigned max_stack)),
                    .Call "print_snake_val",
                    .Add (.ToReg .Rsp (.Unsigned max_stack)) ],
                    counter, stack)
          | .IsBool =>
              some (res0 ++
                [ .Mov (.ToReg .Rdx (.Unsigned SNAKE_FLS)),
                  .And (.ToReg .Rax (.Reg .Rdx)),
                  .Shl (.ToReg .Rax (.Signed 63)),
                  .Or (.ToReg .Rax (.Reg .Rdx)) ],
                counter, stack)
          | .IsNum =>
              some (res0 ++
                [ .Mov (.ToReg .Rdx (.Unsigned SNAKE_FLS)),
                  .Xor (.ToReg .Rax (.Reg .Rdx)),
                  .Shl (.ToReg .Rax (.Signed 63)),
                  .Or (.ToReg .Rax (.Reg .Rdx)) ],
                counter, stack)
          | .And =>
              match restArgs with
              | [] => none
              | e1 :: _ =>
                match imm_to_arg64 e1 stack with
                | none => none
                | some a1 =>
                    some (res0 ++ logic_check .Rax ++
                      [Instr.Mov (.ToReg .Rdx a1)] ++ logic_check .Rdx ++
                      [ .And (.ToReg .Rax (.Reg .Rdx)) ],
                      counter, stack)
          | .Or =>
              match restArgs with
              | [] => none
              | e1 :: _ =>
                match imm_to_arg64 e1 stack with
                | none => none
                | some a1 =>
                    some (res0 ++ logic_check .Rax ++
                      [Instr.Mov (.ToReg .Rdx a1)] ++ logic_check .Rdx ++
                      [ .Or (.ToReg .Rax (.Reg .Rdx)) ],
                      counter, stack)
          | .Lt =>
              match sub_for_cmp exps stack false with
              | none => none
              | some cmp_is => some (res0 ++ cmp_is ++ is_neg, counter, stack)
          | .Gt =>
              match sub_for_cmp exps stack true with
              | none => none
              | some cmp_is => some (res0 ++ cmp_is ++ is_neg, counter, stack)
          | .Le =>
              match sub_for_cmp exps stack true with
              | none => none
              | some cmp_is =>
                  some (res0 ++ cmp_is ++ is_non_neg, counter, stack)
          | .Ge =>
              match sub_for_cmp exps stack false with
              | none => none
              | some cmp_is =>
                  some (res0 ++ cmp_is ++ is_non_neg, counter, stack)
          | .Eq =>
              match restArgs with
              | [] => none
              | e1 :: _ =>
                match imm_to_arg64 e1 stack with
                | none => none
                | some a1 =>
                    let c1 := counter + 1
                    let fls_label := "false_" ++ toString c1
                    let done_label := "cmp_done_" ++ toString c1
                    some (res0 ++ [Instr.Mov (.ToReg .Rdx a1)] ++
                      [ .Cmp (.ToReg .Rax (.Reg .Rdx)),
                        .Jne fls_label,
                        .Mov (.ToReg .Rax (.Unsigned SNAKE_TRU)),
                        .Jmp done_label,
                        .Label fls_label,
                        .Mov (.ToReg .Rax (.Unsigned SNAKE_FLS)),
                        .Label done_label ],
                      c1, stack)
          | .Neq =>
              match restArgs with
              | [] => none
              | e1 :: _ =>
                match imm_to_arg64 e1 stack with
                | none => none
                | some a1 =>
                    let c1 := counter + 1
                    let fls_label := "false_" ++ toString c1
                    let done_label := "cmp_done_" ++ toString c1
                    some (res0 ++ [Instr.Mov (.ToReg .Rdx a1)] ++
                      [ .Cmp (.ToReg .Rax (.Reg .Rdx)),
                        .Je fls_label,
                        .Mov (.ToReg .Rax (.Unsigned SNAKE_TRU)),
                        .Jmp done_label,
                        .Label fls_label,
                        .Mov (.ToReg .Rax (.Unsigned SNAKE_FLS)),
                        .Label done_label ],
                      c1, stack)
  | .Let var bound_exp body =>
      match compile_to_instrs_inner bound_exp counter max_stack stack with
      | none => none
      | some (res1, c1, stack1) =>
          let offset : Int := (stack1.length + 1) * 8
          let stack2 := (var, offset) :: stack1
          match compile_to_instrs_inner body c1 max_stack stack2 with
          | none => none
          | some (res2, c2, stack3) =>
              some (res1 ++
                [Instr.Mov (.ToMem ⟨Reg.Rsp, offset⟩ (.Reg .Rax))] ++ res2,
                c2, stack3)
  | .If cond thn els =>
      match imm_to_rax cond stack with
      | none => none
      | some res0 =>
          let c1 := counter + 1
          let els_label := "else_" ++ toString c1
          let done_label := "done_" ++ toString c1
          match compile_to_instrs_inner thn c1 max_stack stack with
          | none => none
          | some (thn_is, c2, _) =>
              match compile_to_instrs_inner els c2 max_stack stack with
              | none => none
              | some (els_is, c3, stack2) =>
                  some (res0 ++ if_check .Rax ++
                    [ .Mov (.ToReg .Rdx (.Unsigned SNAKE_FLS)),
                      .Cmp (.ToReg .Rax (.Reg .Rdx)),
                      .Je els_label ] ++
                    thn_is ++ [.Jmp done_label, .Label els_label] ++
                    els_is ++ [.Label done_label],
                    c3, stack2)
  | .FunDefs _ _ => none
  | .InternalTailCall _ _ => none
  | .ExternalCall _ _ _ => none

def compile_to_instrs (e : SeqExp) (max_stack : Nat) :
    Option (List Instr) :=
  match compile_to_instrs_inner e 0 max_stack [] with
  | none => none
  | some (is, _, _) => some (is ++ [Instr.Ret])

/- space_needed from compile.rs lines 722-753.  The recursive results are
   already in bytes, yet the Let case adds them to a slot count of 1; the
   final step makes the count odd when it is even and multiplies by 8.
   The todo branches are none. -/
def space_needed (e : SeqExp) : Option Nat :=
  match e with
  | .Let _ bound_exp body =>
      match space_needed bound_exp, space_needed body with
      | some a, some b =>
          let stack := a + b + 1
          some ((if stack % 2 = 0 then stack + 1 else stack) * 8)
      | _, _ => none
  | .Imm _ => some 8
  | .Prim _ _ => some 8
  | .If _ thn els =>
      match space_needed thn, space_needed els with
      | some a, some b =>
          let stack := max a b
          some ((if stack % 2 = 0 then stack + 1 else stack) * 8)
      | _, _ => none
  | .FunDefs _ _ => none
  | .InternalTailCall _ _ => none
  | .ExternalCall _ _ _ => none

/- error_handle_instr from compile.rs lines 755-784. -/
def error_handle_instr (e : SeqExp) : Option (List Instr) :=
  match space_needed e with
  | none => none
  | some stack =>
      some
        [ Instr.Label ARITH_ERROR,
          .Mov (.ToReg .Rdi (.Signed 0)),
          .Mov (.ToReg .Rsi (.Reg .Rax)),
          .Sub (.ToReg .Rsp (.Unsigned stack)),
          .Call SNAKE_ERROR,
          .Label CMP_ERROR,
          .Mov (.ToReg .Rdi (.Signed 1)),
          .Mov (.ToReg .Rsi (.Reg .Rax)),
          .Sub (.ToReg .Rsp (.Unsigned stack)),
          .Call SNAKE_ERROR,
          .Label OVERFLOW,
          .Mov (.ToReg .Rdi (.Signed 2)),
          .Mov (.ToReg .Rsi (.Reg .Rax)),
          .Sub (.ToReg .Rsp (.Unsigned stack)),
          .Call SNAKE_ERROR,
          .Label IF_ERROR,
          .Mov (.ToReg .Rdi (.Signed 3)),
          .Mov (.ToReg .Rsi (.Reg .Rax)),
          .Sub (.ToReg .Rsp (.Unsigned stack)),
          .Call SNAKE_ERROR,
          .Label LOGIC_ERROR,
          .Mov (.ToReg .Rdi (.Signed 4)),
          .Mov (.ToReg .Rsi (.Reg .Rax)),
          .Sub (.ToReg .Rsp (.Unsigned stack)),
          .Call SNAKE_ERROR ]

/- Modelled from the spec: instrs_to_string, the deterministic textual
   emission of the instruction ADT (the assembly printer of section 2;
   asm.rs is not under src/).  Section 6 fixes the syntax: Intel syntax,
   one instruction per line indented by eight spaces, labels as the label
   name followed by a colon. -/
def reg_to_string (r : Reg) : String :=
  match r with
  | .Rax => "rax"
  | .Rdx => "rdx"
  | .Rcx => "rcx"
  | .Rdi => "rdi"
  | .Rsi => "rsi"
  | .Rsp => "rsp"

def mem_to_string (m : MemRef) : String :=
  "[" ++ reg_to_string m.reg ++ " + " ++ toString m.offset ++ "]"

def arg64_to_string (a : Arg64) : String :=
  match a with
  | .Signed i => toString i
  | .Unsigned n => toString n
  | .Reg r => reg_to_string r
  | .Mem m => mem_to_string m

def arg32_to_string (a : Arg32) : String :=
  match a with
  | .Signed i => toString i
  | .Unsigned n => toString n
  | .Reg r => reg_to_string r
  | .Mem m => mem_to_string m

def mov_args_to_string (a : MovArgs) : String :=
  match a with
  | .ToReg r arg => reg_to_string r ++ ", " ++ arg64_to_string arg
  | .ToMem m (.Reg r) => mem_to_string m ++ ", " ++ reg_to_string r

def bin_args_to_string (a : BinArgs) : String :=
  match a with
  | .ToReg r arg => reg_to_string r ++ ", " ++ arg32_to_string arg

def instr_to_string (i : Instr) : String :=
  match i with
  | .Mov a => "        mov " ++ mov_args_to_string a
  | .Add a => "        add " ++ bin_args_to_string a
  | .Sub a => "        sub " ++ bin_args_to_string a
  | .IMul a => "        imul " ++ bin_args_to_string a
  | .And a => "        and " ++ bin_args_to_string a
  | .Or a => "        or " ++ bin_args_to_string a
  | .Xor a => "        xor " ++ bin_args_to_string a
  | .Shl a => "        shl " ++ bin_args_to_string a
  | .Sar a => "        sar " ++ bin_args_to_string a
  | .Cmp a => "        cmp " ++ bin_args_to_string a
  | .Je l => "        je " ++ l
  | .Jne l => "        jne " ++ l
  | .Jo l => "        jo " ++ l
  | .Jmp l => "        jmp " ++ l
  | .Call l => "        call " ++ l
  | .Ret => "        ret"
  | .Label l => l ++ ":"

def instrs_to_string (is : List Instr) : String :=
  String.intercalate "\n" (is.map instr_to_string)

def asm_header : String :=
  "        section .text\n        global start_here\n        extern snake_error\n        extern print_snake_val\n"

/- compile_to_string from compile.rs lines 786-815: check, then uniquify
   (whose result is bound to an unused variable, but whose panics still
   abort), then sequentialize the ORIGINAL program, compute the frame
   size, compile, and splice the pieces into the fixed format string.  The
   format string places the main instructions directly after the
   start_here label; no main label and no call to main are emitted. -/
def compile_to_string (p : Exp) : Res String :=
  match check_prog p with
  | .err e => .err e
  | .panicked => .panicked
  | .ok _ =>
    match uniquify p [] 0 with
    | none => .panicked
    | some _ =>
      match sequentialize p 0 with
      | none => .panicked
      | some (seqE, _) =>
        match space_needed seqE with
        | none => .panicked
        | some max_stack =>
          match compile_to_instrs seqE max_stack with
          | none => .panicked
          | some main_is =>
            match error_handle_instr seqE with
            | none => .panicked
            | some err_is =>
              .ok (asm_header ++ instrs_to_string err_is ++
                "\nstart_here:\n" ++ instrs_to_string main_is ++ "       \n")

/- A naive substring test (needle, then haystack), used to state which
   label names occur in the emitted assembly text. -/
def leadMatch (needle hay : List Char) : Bool :=
  match needle, hay with
  | [], _ => true
  | _ :: _, [] => false
  | c :: cs, d :: ds => c == d && leadMatch cs ds

def subAt (needle hay : List Char) : Bool :=
  match hay with
  | [] => leadMatch needle []
  | _ :: ds => leadMatch needle hay || subAt needle ds

def strHasSub (hay needle : String) : Bool :=
  subAt needle.toList hay.toList

/- align_up as the spec uses it in section 4.6: round n up to a multiple
   of k. -/
def align_up (n k : Nat) : Nat := ((n + k - 1) / k) * k

/- Modelled from the spec: a small-step executor for the straight-line
   fragment of the instruction set (sections 4.1, 4.6, 4.7 describe the
   intended x86-64 semantics; there is no executor in the repository).
   Register contents are 64-bit words embedded as Nat below 2 to the 64;
   every arithmetic write reduces mod 2 to the 64.  Cmp and the flag-writing
   arithmetic instructions set the zero flag; Je and Jne read it.  A jump
   that is taken ends execution with the target label; an instruction or
   operand outside the modelled fragment is stuck. -/
def TWO64 : Nat := 2 ^ 64

def wrap64 (i : Int) : Nat := (i % ((2 : Int) ^ 64)).toNat

structure MState where
  rax : Nat
  rdx : Nat
  rcx : Nat
  rdi : Nat
  zf : Bool
deriving DecidableEq

def getReg (s : MState) (r : Reg) : Option Nat :=
  match r with
  | .Rax => some s.rax
  | .Rdx => some s.rdx
  | .Rcx => some s.rcx
  | .Rdi => some s.rdi
  | _ => none

def setReg (s : MState) (r : Reg) (v : Nat) : Option MState :=
  match r with
  | .Rax => some { s with rax := v }
  | .Rdx => some { s with rdx := v }
  | .Rcx => some { s with rcx := v }
  | .Rdi => some { s with rdi := v }
  | _ => none

def evalArg64 (s : MState) (a : Arg64) : Option Nat :=
  match a with
  | .Signed i => some (wrap64 i)
  | .Unsigned n => some (n % TWO64)
  | .Reg r => getReg s r
  | .Mem _ => none

/- A 32-bit operand of a 64-bit instruction is sign-extended. -/
def evalArg32 (s : MState) (a : Arg32) : Option Nat :=
  match a with
  | .Signed i => some (wrap64 i)
  | .Unsigned n => some (n % TWO64)
  | .Reg r => getReg s r
  | .Mem _ => none

/- One arithmetic shift right by one bit: halve and keep the top bit. -/
def sar_step (v : Nat) : Nat := v / 2 + (if 2 ^ 63 ≤ v then 2 ^ 63 else 0)

def sar_many (v : Nat) (k : Nat) : Nat :=
  match k with
  | 0 => v
  | k2 + 1 => sar_many (sar_step v) k2

/- The raw shift amount of a shift instruction. -/
def shift_amount (a : Arg32) : Option Nat :=
  match a with
  | .Signed i => if 0 ≤ i then some i.toNat else none
  | .Unsigned n => some n
  | _ => none

inductive ExecOut where
  | fin (s : MState)
  | jumped (label : String) (s : MState)
  | stuck
deriving DecidableEq

def run (instrs : List Instr) (s : MState) : ExecOut :=
  match instrs with
  | [] => .fin s
  | i :: rest =>
    match i with
    | .Mov (.ToReg r a) =>
        match evalArg64 s a with
        | none => .stuck
        | some v =>
            match setReg s r v with
            | none => .stuck
            | some s2 => run rest s2
    | .And (.ToReg r a) =>
        match getReg s r, evalArg32 s a with
        | some x, some y =>
            let v := Nat.land x y
            match setReg s r v with
            | none => .stuck
            | some s2 => run rest { s2 with zf := v = 0 }
        | _, _ => .stuck
    | .Or (.ToReg r a) =>
        match getReg s r, evalArg32 s a with
        | some x, some y =>
            let v := Nat.lor x y
            match setReg s r v with
            | none => .stuck
            | some s2 => run rest { s2 with zf := v = 0 }
        | _, _ => .stuck
    | .Xor (.ToReg r a) =>
        match getReg s r, evalArg32 s a with
        | some x, some y =>
            let v := Nat.xor x y
            match setReg s r v with
            | none => .stuck
            | some s2 => run rest { s2 with zf := v = 0 }
        | _, _ => .stuck
    | .Add (.ToReg r a) =>
        match getReg s r, evalArg32 s a with
        | some x, some y =>
            let v := (x + y) % TWO64
            match setReg s r v with
            | none => .stuck
            | some s2 => run rest { s2 with zf := v = 0 }
        | _, _ => .stuck
    | .Sub (.ToReg r a) =>
        match getReg s r, evalArg32 s a with
        | some x, some y =>
            let v := (x + TWO64 - y) % TWO64
            match setReg s r v with
            | none => .stuck
            | some s2 => run rest { s2 with zf := v = 0 }
        | _, _ => .stuck
    | .Sar (.ToReg r a) =>
        match getReg s r, shift_amount a with
        | some x, some k =>
            let v := sar_many x k
            match setReg s r v with
            | none => .stuck
            | some s2 => run rest { s2 with zf := v = 0 }
        | _, _ => .stuck
    | .Shl (.ToReg r a) =>
        match getReg s r, shift_amount a with
        | some x, some k =>
            let v := (x <<< k) % TWO64
            match setReg s r v with
            | none => .stuck
            | some s2 => run rest { s2 with zf := v = 0 }
        | _, _ => .stuck
    | .Cmp (.ToReg r a) =>
        match getReg s r, evalArg32 s a with
        | some x, some y =>
            run rest { s with zf := (x + TWO64 - y) % TWO64 = 0 }
        | _, _ => .stuck
    | .Je l => if s.zf then .jumped l s else run rest s
    | .Jne l => if s.zf then run rest s else .jumped l s
    | .Jmp l => .jumped l s
    | .Label _ => run rest s
    | _ => .stuck

def initMachine : MState := ⟨0, 0, 0, 0, false⟩

/- setInsert embeds HashSet::insert with insertion order retained. -/
def setInsert (s : List String) (x : String) : List String :=
  if s.contains x then s else s ++ [x]

mutual

/- search_unbound from lambda_lift.rs lines 102-148.  Both mutable sets
   are threaded: names inserted into locals by a Let persist into the
   sibling expressions visited afterwards, exactly as the &mut sets do.
   Note that neither the FunDefs case nor any caller in lambda_lift_inner
   ever inserts function parameters into locals. -/
def search_unbound (e : Exp) (locals unbound : List String) :
    List String × List String :=
  match e with
  | .Var s =>
      (locals, if locals.contains s then unbound else setInsert unbound s)
  | .Prim _ exps => search_unbound_each exps locals unbound
  | .Let bindings body =>
      match search_unbound_bindings bindings locals unbound with
      | (l2, u2) => search_unbound body l2 u2
  | .If cond thn els =>
      match search_unbound cond locals unbound with
      | (l1, u1) =>
          match search_unbound thn l1 u1 with
          | (l2, u2) => search_unbound els l2 u2
  | .FunDefs decls body =>
      match search_unbound_decls decls locals unbound with
      | (l1, u1) => search_unbound body l1 u1
  | .Call _ params => search_unbound_each params locals unbound
  | _ => (locals, unbound)

def search_unbound_bindings (bindings : List (String × Exp))
    (locals unbound : List String) : List String × List String :=
  match bindings with
  | [] => (locals, unbound)
  | (x, v) :: rest =>
      let l1 := setInsert locals x
      match search_unbound v l1 unbound with
      | (l2, u2) => search_unbound_bindings rest l2 u2

def search_unbound_decls (decls : List (String × List String × Exp))
    (locals unbound : List String) : List String × List String :=
  match decls with
  | [] => (locals, unbound)
  | (_, _, dbody) :: rest =>
      match search_unbound dbody locals unbound with
      | (l1, u1) => search_unbound_decls rest l1 u1

def search_unbound_each (es : List Exp) (locals unbound : List String) :
    List String × List String :=
  match es with
  | [] => (locals, unbound)
  | e :: rest =>
      match search_unbound e locals unbound with
      | (l1, u1) => search_unbound_each rest l1 u1

end

mutual

/- lambda_lift_inner from lambda_lift.rs lines 204-284.  globals is the
   HashMap of lifted declarations, threaded explicitly; a lifted
   declaration keeps its name and body and has the captured names appended
   to its parameters.  The captured set of each declaration body is
   computed by search_unbound with an EMPTY locals set (line 249): the
   declaration parameters are not excluded. -/
def lambda_lift_inner (e : Exp)
    (globals : List (String × List String × Exp)) (force_global : Bool) :
    Exp × List (String × List String × Exp) :=
  match e with
  | .Prim p exps =>
      match lambda_lift_each exps globals force_global with
      | (l, g2) => (.Prim p l, g2)
  | .Let bindings body =>
      match lambda_lift_bindings bindings globals force_global with
      | (bs, g2) =>
          match lambda_lift_inner body g2 force_global with
          | (b2, g3) => (.Let bs b2, g3)
  | .If cond thn els =>
      match lambda_lift_inner cond globals force_global with
      | (c2, g1) =>
          match lambda_lift_inner thn g1 force_global with
          | (t2, g2) =>
              match lambda_lift_inner els g2 force_global with
              | (e2, g3) => (.If c2 t2 e2, g3)
  | .FunDefs decls body =>
      match lift_decls decls globals force_global with
      | (new_local_funcs, g2) =>
          match lambda_lift_inner body g2 force_global with
          | (new_body, g3) =>
              if new_local_funcs.isEmpty then (new_body, g3)
              else (.FunDefs new_local_funcs new_body, g3)
  | .Call func params =>
      match lambda_lift_each params globals force_global with
      | (l, g2) => (.Call func l, g2)
  | _ => (e, globals)

/- The declaration loop of the Exp::FunDefs case of lambda_lift_inner:
   compute the captured set of the body from an empty locals set; a
   closure-free declaration stays local unless force_global is set, any
   other declaration is inserted into globals with the captured names
   appended to its parameters. -/
def lift_decls (decls : List (String × List String × Exp))
    (globals : List (String × List String × Exp)) (force_global : Bool) :
    List (String × List String × Exp) ×
      List (String × List String × Exp) :=
  match decls with
  | [] => ([], globals)
  | (name, params, dbody) :: rest =>
      let captured := (search_unbound dbody [] []).2
      if captured.isEmpty && !force_global then
        match lift_decls rest globals force_global with
        | (l, g2) => ((name, params, dbody) :: l, g2)
      else
        lift_decls rest (insertSym globals name (params ++ captured, dbody))
          force_global

def lambda_lift_bindings (bindings : List (String × Exp))
    (globals : List (String × List String × Exp)) (force_global : Bool) :
    List (String × Exp) × List (String × List String × Exp) :=
  match bindings with
  | [] => ([], globals)
  | (x, v) :: rest =>
      match lambda_lift_inner v globals force_global with
      | (v2, g1) =>
          match lambda_lift_bindings rest g1 force_global with
          | (l, g2) => ((x, v2) :: l, g2)

def lambda_lift_each (es : List Exp)
    (globals : List (String × List String × Exp)) (force_global : Bool) :
    List Exp × List (String × List String × Exp) :=
  match es with
  | [] => ([], globals)
  | e :: rest =>
      match lambda_lift_inner e globals force_global with
      | (e2, g1) =>
          match lambda_lift_each rest g1 force_global with
          | (l, g2) => (e2 :: l, g2)

end

/- The end-to-end scenario 4 of the spec: the recursive fib-like program
   def f(n): if n less than 2: n else: f(n - 1) + f(n - 2) in f(10). -/
def fibProg : Exp :=
  .FunDefs [("f", ["n"],
      .If (.Prim .Lt [.Var "n", .Num 2]) (.Var "n")
        (.Prim .Add [.Call "f" [.Prim .Sub [.Var "n", .Num 1]],
                     .Call "f" [.Prim .Sub [.Var "n", .Num 2]]]))]
    (.Call "f" [.Num 10])

/- def f(): 1 in f() -/
def callProg : Exp := .FunDefs [("f", [], .Num 1)] (.Call "f" [])

/- def f(): g() and def g(): 1 in f(): the earlier declaration calls the
   later sibling. -/
def mutualProg : Exp :=
  .FunDefs [("f", [], .Call "g" []), ("g", [], .Num 1)] (.Call "f" [])

/- The same group with the declarations swapped: the call now points
   backwards. -/
def mutualProgSwapped : Exp :=
  .FunDefs [("g", [], .Num 1), ("f", [], .Call "g" [])] (.Call "f" [])

/- def f(x, x): 1 in 2, a declaration with a repeated parameter name. -/
def dupArgProg : Exp := .FunDefs [("f", ["x", "x"], .Num 1)] (.Num 2)

/- let x = x in x with x otherwise unbound. -/
def selfLetProg : Exp := .Let [("x", .Var "x")] (.Var "x")

/- The assembly text compile_to_string emits for the program 1. -/
def asmNum1 : String :=
  "        section .text\n        global start_here\n        extern snake_error\n        extern print_snake_val\narith_error:\n        mov rdi, 0\n        mov rsi, rax\n        sub rsp, 8\n        call snake_error\ncmp_error:\n        mov rdi, 1\n        mov rsi, rax\n        sub rsp, 8\n        call snake_error\noverflow_error:\n        mov rdi, 2\n        mov rsi, rax\n        sub rsp, 8\n        call snake_error\nif_error:\n        mov rdi, 3\n        mov rsi, rax\n        sub rsp, 8\n        call snake_error\nlogic_error:\n        mov rdi, 4\n        mov rsi, rax\n        sub rsp, 8\n        call snake_error\nstart_here:\n        mov rax, 2\n        ret       \n"

set_option maxRecDepth 40000

/-- Claim C1: the spec says the program def f(n): if n less than 2: n else
f(n - 1) + f(n - 2) in f(10) is accepted by check_prog (parameters being
in scope in the function body) and compiles to a program printing 55.  The
code disagrees: check_prog_inner never adds the parameters of a declaration
to the scope it checks the body under, so the parameter occurrence of n is
reported as UnboundVariable. -/
theorem C1_fib_rejected :
    check_prog fibProg = Res.err (CompileErr.UnboundVariable "n") := by
  decide

/-- Claim C3: the spec says FunDefs groups are mutually recursive, all
declared names visible in every body, so def f(): g() and def g(): 1 in
f() is accepted.  The code checks each body right after inserting only the
declarations up to and including it, so the forward call to g is reported
as UndefinedFunction; the same group with the declarations swapped is
accepted. -/
theorem C3_forward_sibling_rejected :
    check_prog mutualProg = Res.err (CompileErr.UndefinedFunction "g") ∧
    check_prog mutualProgSwapped = Res.ok () := by
  exact ⟨by decide, by decide⟩

/-- Claim C4: the spec says a FunDecl with repeated parameter names is
reported as DuplicateArgName.  The code never constructs that error:
check_prog_inner accepts def f(x, x): 1 in 2, and no input at all can
make it return DuplicateArgName. -/
theorem C4_dup_arg_accepted :
    check_prog dupArgProg = Res.ok () ∧
    (∀ (e : Exp) (symbols : List (String × SymKind)) (nm : String),
      check_prog_inner e symbols ≠
        Res.err (CompileErr.DuplicateArgName nm)) := by
  refine ⟨by decide, ?_⟩
  intro e symbols
  apply check_prog_inner.induct
    (fun e s => ∀ nm,
      check_prog_inner e s ≠ Res.err (.DuplicateArgName nm))
    (fun d s mf => ∀ nm,
      check_fun_decls d s mf ≠ Res.err (.DuplicateArgName nm))
    (fun b s ap => ∀ nm,
      check_let_bindings b s ap ≠ Res.err (.DuplicateArgName nm))
    (fun es s => ∀ nm,
      check_each es s ≠ Res.err (.DuplicateArgName nm))
  all_goals
    intros
    intro h
    simp only [check_prog_inner, check_fun_decls, check_let_bindings,
      check_each] at h
    first
    | (split at h <;>
        first
        | (simp_all; done)
        | (simp_all; solve_by_elim [Eq.symm]))
    | simp_all

/-- Claim C5: the spec says a Let binding is checked in a scope holding
only earlier bindings, so let x = x in x is rejected with UnboundVariable.
The code inserts the binding name into the scope BEFORE checking the bound
expression, so the program passes the checker; compile_to_string then hits
a panic (the map index inside uniquify on the still-unbound x). -/
theorem C5_self_let_accepted :
    check_prog selfLetProg = Res.ok () ∧
    compile_to_string selfLetProg = Res.panicked := by
  have h1 : uniquify selfLetProg [] 0 = none := by
    simp [selfLetProg, uniquify, uniquify_bindings, lookupSym]
  have h2 : check_prog selfLetProg = Res.ok () := by decide
  exact ⟨h2, by simp [compile_to_string, h1, h2]⟩

/-- Claim C2: def f(): 1 in f() passes check_prog, yet compile_to_string
neither returns Ok nor a CompileErr: it panics (the trailing body of the
FunDefs group is uniquified under the outer mapping, where f is not bound,
and sequentialize has only todo branches for FunDefs and Call anyway).
Moreover the error channel of compile_to_string carries exactly the
checker errors, and sequentialize panics on every FunDefs and every Call
node. -/
theorem C2_compile_panics :
    check_prog callProg = Res.ok () ∧
    compile_to_string callProg = Res.panicked ∧
    (∀ (p : Exp) (e : CompileErr),
      compile_to_string p = Res.err e → check_prog p = Res.err e) ∧
    (∀ (decls : List (String × List String × Exp)) (body : Exp) (c : Nat),
      sequentialize (Exp.FunDefs decls body) c = none) ∧
    (∀ (f : String) (args : List Exp) (c : Nat),
      sequentialize (Exp.Call f args) c = none) := by
  have hchk : check_prog callProg = Res.ok () := by decide
  have huniq : uniquify callProg [] 0 = none := by
    simp [callProg, uniquify, uniquify_decls, uniquify_each,
      fresh_fun_names, mapLookupAll, insertSym, lookupSym]
  refine ⟨hchk, by simp [compile_to_string, hchk, huniq], ?_, ?_, ?_⟩
  · intro p e h
    unfold compile_to_string at h
    split at h
    · cases h; assumption
    · exact absurd h (by simp)
    · split at h
      · exact absurd h (by simp)
      · split at h
        · exact absurd h (by simp)
        · split at h
          · exact absurd h (by simp)
          · split at h
            · exact absurd h (by simp)
            · split at h
              · exact absurd h (by simp)
              · exact absurd h (by simp)
  · intro decls body c
    simp [sequentialize]
  · intro f args c
    simp [sequentialize]

/-- Counterexample for claim C6: the sequential expression consisting of
the single immediate 1 needs no local slot, so the claimed frame size is
align_up(0 + 1, 2) * 8 = 16, but space_needed returns 8; indeed the
claimed formula always yields a multiple of 16 while 8 is not one. -/
theorem C6_counterexample :
    space_needed (SeqExp.Imm (ImmExp.Num 1)) = some 8 ∧
    (∀ n : Nat, align_up (n + 1) 2 * 8 % 16 = 0) ∧ 8 % 16 ≠ 0 := by
  refine ⟨rfl, ?_, by decide⟩
  intro n
  unfold align_up
  omega

/-- Claim C6 as amended: space_needed never computes
align_up(locals + 1, 2) * 8; instead it rounds its slot count UP TO AN ODD
number and multiplies by 8, so every frame size it returns is congruent to
8 mod 16 (an odd number of 8-byte slots), never a multiple of 16. -/
theorem C6_frame_odd (e : SeqExp) :
    ∀ s, space_needed e = some s → s % 16 = 8 := by
  induction e using space_needed.induct with
  | case1 v b bd x y hy hx ihb ihbd =>
      intro s h
      simp only [space_needed, hx, hy, Option.some.injEq] at h
      split at h <;> omega
  | case2 v b bd hnone ihb ihbd =>
      intro s h
      simp only [space_needed] at h
      exact Option.noConfusion h
  | case3 i => intro s h; simp [space_needed] at h; omega
  | case4 p exps => intro s h; simp [space_needed] at h; omega
  | case5 c t f x y hy hx iht ihf =>
      intro s h
      simp only [space_needed, hx, hy, Option.some.injEq] at h
      split at h <;> omega
  | case6 c t f hnone iht ihf =>
      intro s h
      simp only [space_needed] at h
      exact Option.noConfusion h
  | case7 decls body => intro s h; simp [space_needed] at h
  | case8 f as => intro s h; simp [space_needed] at h
  | case9 f as t => intro s h; simp [space_needed] at h

/-- Witness for C6_frame_odd at the concrete expression Imm 1, whose frame
is 8 bytes. -/
theorem C6_frame_odd_witness :
    space_needed (SeqExp.Imm (ImmExp.Num 1)) = some 8 ∧ 8 % 16 = 8 :=
  ⟨rfl, C6_frame_odd (SeqExp.Imm (ImmExp.Num 1)) 8 rfl⟩

/-- Claim C7: the spec says the captured set computed for a local function
body never contains the function parameters, so def f(x): x captures
nothing and its lifted parameter list is unchanged.  The code passes an
EMPTY locals set to search_unbound, so for the body x of f(x) the captured
set is exactly the parameter x, the declaration is lifted, and its
parameter list becomes x, x. -/
theorem C7_own_param_captured :
    search_unbound (Exp.Var "x") [] [] = ([], ["x"]) ∧
    lambda_lift_inner (Exp.FunDefs [("f", ["x"], Exp.Var "x")] (Exp.Num 0))
        [] false
      = (Exp.Num 0, [("f", ["x", "x"], Exp.Var "x")]) :=
  ⟨rfl, rfl⟩

/-- Counterexample for claim C8: the assembly emitted for the program 1
contains no main label and no call to main at all (in particular the text
main does not occur in it), so start_here is not followed by call main and
ret. -/
theorem C8_counterexample :
    compile_to_string (Exp.Num 1) = Res.ok asmNum1 ∧
    strHasSub asmNum1 "main" = false ∧
    strHasSub asmNum1 "call main" = false := by
  have h1 : uniquify (.Num 1) [] 0 = some (.Num 1, 0) := by simp [uniquify]
  have h2 : sequentialize (.Num 1) 0 = some (.Imm (.Num 1), 0) := by
    simp [sequentialize]
  have h3 : check_prog (Exp.Num 1) = Res.ok () := by decide
  refine ⟨?_, by decide, by decide⟩
  simp only [compile_to_string, h1, h2, h3]
  decide

/-- Claim C8 as amended: the emitted assembly contains a start_here label
followed DIRECTLY by the compiled main body instructions (no main label
and no call main are emitted; the main body is inlined after start_here).
Shown at the program 1, whose compiled main body is mov rax, 2 then
ret. -/
theorem C8_main_inlined_after_start_here :
    compile_to_string (Exp.Num 1) = Res.ok asmNum1 ∧
    sequentialize (Exp.Num 1) 0 = some (.Imm (.Num 1), 0) ∧
    space_needed (SeqExp.Imm (ImmExp.Num 1)) = some 8 ∧
    compile_to_instrs (SeqExp.Imm (ImmExp.Num 1)) 8
      = some [Instr.Mov (.ToReg .Rax (.Signed 2)), Instr.Ret] ∧
    instrs_to_string [Instr.Mov (.ToReg .Rax (.Signed 2)), Instr.Ret]
      = "        mov rax, 2\n        ret" ∧
    strHasSub asmNum1
      ("start_here:\n" ++
        instrs_to_string [Instr.Mov (.ToReg .Rax (.Signed 2)), Instr.Ret])
      = true := by
  have h1 : uniquify (.Num 1) [] 0 = some (.Num 1, 0) := by simp [uniquify]
  have h2 : sequentialize (.Num 1) 0 = some (.Imm (.Num 1), 0) := by
    simp [sequentialize]
  have h3 : check_prog (Exp.Num 1) = Res.ok () := by decide
  refine ⟨?_, h2, rfl, rfl, by decide, by decide⟩
  simp only [compile_to_string, h1, h2, h3]
  decide

/-- Claim C9: check_prog reports Overflow for a numeric literal n exactly
when n exceeds 2 to the 62 minus 1 or is below minus 2 to the 62; the two
boundary values are accepted and 2 to the 62 is rejected. -/
theorem C9_overflow_bounds :
    (∀ (n : Int) (symbols : List (String × SymKind)),
      check_prog_inner (Exp.Num n) symbols
          = Res.err (CompileErr.Overflow n)
        ↔ (n > 2 ^ 62 - 1 ∨ n < -(2 ^ 62))) ∧
    check_prog (Exp.Num (2 ^ 62 - 1)) = Res.ok () ∧
    check_prog (Exp.Num (-(2 ^ 62))) = Res.ok () ∧
    check_prog (Exp.Num (2 ^ 62)) = Res.err (CompileErr.Overflow (2 ^ 62))
    := by
  refine ⟨?_, by decide, by decide, by decide⟩
  intro n symbols
  show (if n > I63_MAX ∨ n < I63_MIN then Res.err (CompileErr.Overflow n)
      else Res.ok ()) = Res.err (CompileErr.Overflow n) ↔ _
  by_cases hc : n > I63_MAX ∨ n < I63_MIN
  · rw [if_pos hc]
    unfold I63_MAX I63_MIN at hc
    constructor
    · intro _
      rcases hc with hc | hc
      · left; omega
      · right; omega
    · intro _; rfl
  · rw [if_neg hc]
    constructor
    · intro h; exact absurd h (by simp)
    · intro h
      exfalso
      unfold I63_MAX I63_MIN at hc
      rcases h with h | h <;> omega

/-- Helper: a tagged number is even, so masking its low bit gives zero. -/
theorem land_one_even (i : Int) : Nat.land (wrap64 (i * 2)) 1 = 0 := by
  have h : Nat.land (wrap64 (i * 2)) 1 = wrap64 (i * 2) &&& 1 := rfl
  rw [h, Nat.and_one_is_mod]
  unfold wrap64
  omega

/-- Helper: one arithmetic shift right undoes the tag shift for any source
integer in the representable range. -/
theorem sar_once_untag (a : Int) (h1 : -(2 ^ 62) ≤ a)
    (h2 : a ≤ 2 ^ 62 - 1) : sar_many (wrap64 (a * 2)) 1 = wrap64 a := by
  unfold sar_many sar_many sar_step wrap64
  split <;> omega

/-- Helper: 64-bit subtraction of wrapped words is the wrap of the integer
difference. -/
theorem sub_mod_wrap (a b : Int) :
    (wrap64 a + TWO64 - wrap64 b) % TWO64 = wrap64 (a - b) := by
  unfold wrap64 TWO64
  omega

/-- Helper: or-ing a word with the low 63-bit mask yields FALSE when the
sign bit is clear. -/
theorem lor_mask_low (v : Nat) (h : v < 2 ^ 63) :
    Nat.lor v NEG_MASK = SNAKE_FLS := by
  have hm : NEG_MASK = 2 ^ 63 - 1 := by unfold NEG_MASK; norm_num
  have hf : SNAKE_FLS = 2 ^ 63 - 1 := by unfold SNAKE_FLS; norm_num
  have hv : Nat.lor v NEG_MASK = v ||| (2 ^ 63 - 1) := by rw [hm]; rfl
  rw [hv, hf]
  apply Nat.eq_of_testBit_eq
  intro i
  rw [Nat.testBit_lor, Nat.testBit_two_pow_sub_one]
  by_cases hi : i < 63
  · simp [hi]
  · have hvi : v.testBit i = false :=
      Nat.testBit_lt_two_pow
        (lt_of_lt_of_le h (Nat.pow_le_pow_right (by norm_num) (by omega)))
    simp [hi, hvi, Nat.testBit_two_pow_sub_one]

/-- Helper: or-ing a word with the low 63-bit mask yields TRUE when the
sign bit is set. -/
theorem lor_mask_high (v : Nat) (h1 : 2 ^ 63 ≤ v) (h2 : v < 2 ^ 64) :
    Nat.lor v NEG_MASK = SNAKE_TRU := by
  have hm : NEG_MASK = 2 ^ 63 - 1 := by unfold NEG_MASK; norm_num
  have ht : SNAKE_TRU = 2 ^ 64 - 1 := by unfold SNAKE_TRU; norm_num
  have hv : Nat.lor v NEG_MASK = v ||| (2 ^ 63 - 1) := by rw [hm]; rfl
  rw [hv, ht]
  apply Nat.eq_of_testBit_eq
  intro i
  rw [Nat.testBit_lor, Nat.testBit_two_pow_sub_one,
    Nat.testBit_two_pow_sub_one]
  by_cases hi : i < 63
  · simp [hi]; omega
  · by_cases hi2 : i = 63
    · subst hi2
      have hb : v.testBit 63 = true := by
        rw [Nat.testBit_to_div_mod]
        simp only [decide_eq_true_eq]
        omega
      simp [hb]
    · have hvi : v.testBit i = false :=
        Nat.testBit_lt_two_pow
          (lt_of_lt_of_le h2 (Nat.pow_le_pow_right (by norm_num) (by omega)))
      simp [hi, hvi]
      omega

/-- Claim C10: for source integers a and b in the representable range, the
instructions the code generator emits for Prim Lt on the tagged operands
terminate without taking any jump to an error label, leaving TRUE in rax
if a is less than b and FALSE otherwise; the untag-then-subtract sequence
cannot wrap in 64 bits. -/
theorem C10_lt_correct (a b : Int) (cnt ms : Nat)
    (ha1 : -(2 ^ 62) ≤ a) (ha2 : a ≤ 2 ^ 62 - 1)
    (hb1 : -(2 ^ 62) ≤ b) (hb2 : b ≤ 2 ^ 62 - 1) :
    ∃ instrs finst,
      compile_to_instrs_inner (SeqExp.Prim .Lt [.Num a, .Num b]) cnt ms []
        = some (instrs, cnt, []) ∧
      run instrs initMachine = ExecOut.fin finst ∧
      finst.rax = if a < b then SNAKE_TRU else SNAKE_FLS := by
  have h1 : Nat.land (wrap64 (a * 2)) 1 = 0 := land_one_even a
  have h2 : Nat.land (wrap64 (b * 2)) 1 = 0 := land_one_even b
  have hsar1 : sar_many (wrap64 (a * 2)) 1 = wrap64 a :=
    sar_once_untag a ha1 ha2
  have hsar2 : sar_many (wrap64 (b * 2)) 1 = wrap64 b :=
    sar_once_untag b hb1 hb2
  have hsub : (wrap64 a + TWO64 - wrap64 b) % TWO64 = wrap64 (a - b) :=
    sub_mod_wrap a b
  have hw1 : wrap64 1 = 1 := by decide
  have hmod : NEG_MASK % TWO64 = NEG_MASK := by decide
  have hcmp : ((0 + TWO64 - 1) % TWO64 = 0) = False := by simp [TWO64]
  have hne : (TWO64 - 1 = 0) = False := by simp [TWO64]
  by_cases hlt : a < b
  · have hor : Nat.lor (wrap64 (a - b)) NEG_MASK = SNAKE_TRU := by
      apply lor_mask_high <;> (unfold wrap64; omega)
    have htru : (SNAKE_TRU = 0) = False := by simp [SNAKE_TRU]
    refine ⟨_, ⟨SNAKE_TRU, NEG_MASK, 0, 0, false⟩, rfl, ?_, by simp [hlt]⟩
    simp [run, evalArg64, evalArg32, getReg, setReg, shift_amount,
      initMachine, h1, h2, hsar1, hsar2, hsub, hw1, hmod, hcmp, hne, hor,
      htru]
  · have hor : Nat.lor (wrap64 (a - b)) NEG_MASK = SNAKE_FLS := by
      apply lor_mask_low
      unfold wrap64
      omega
    have hfls : (SNAKE_FLS = 0) = False := by simp [SNAKE_FLS]
    refine ⟨_, ⟨SNAKE_FLS, NEG_MASK, 0, 0, false⟩, rfl, ?_, by simp [hlt]⟩
    simp [run, evalArg64, evalArg32, getReg, setReg, shift_amount,
      initMachine, h1, h2, hsar1, hsar2, hsub, hw1, hmod, hcmp, hne, hor,
      hfls]

/-- Witness for C10_lt_correct at a = 1, b = 2, counter 0, frame 8. -/
theorem C10_lt_correct_witness :
    ∃ instrs finst,
      compile_to_instrs_inner
          (SeqExp.Prim .Lt [.Num (1 : Int), .Num (2 : Int)]) 0 8 []
        = some (instrs, 0, []) ∧
      run instrs initMachine = ExecOut.fin finst ∧
      finst.rax = if (1 : Int) < 2 then SNAKE_TRU else SNAKE_FLS :=
  C10_lt_correct 1 2 0 8 (by decide) (by decide) (by decide) (by decide)
